import Mathlib

/-!
Shallow embedding of the tic-tac-toe room server (`src/server.js`) and proofs
about the claims of the specification.

The embedding models the in-memory registry (`rooms`, `playerSockets`), the
Socket.IO event handlers (`joinRoom`, `makeMove`, `resetGame`, `playerReady`,
`chatMessage`, `disconnect`), the helper functions (`checkWinner`, `resetRoom`,
`leaveRoom`), the inactivity timer (as an armed/cleared flag plus an explicit
firing event) and the periodic stale-room sweep.  JavaScript `Map`s are
modelled as insertion-ordered association lists, socket emissions as an
explicit output list of (target, event-name, payload) records, and the
JavaScript array accesses `board[index]` as an `Option`-valued lookup so that
out-of-range indices behave like `undefined`.
-/

namespace TTT

/-- A room member, as built by the `joinRoom` handler (`server.js` lines
167-174).  The source field names are kept. -/
structure Player where
  id : String
  name : String
  avatar : String
  symbol : String
  joinedAt : Nat
  ready : Bool
deriving DecidableEq, Repr

/-- The per-room game state object (`server.js` lines 137-143).
`winner` is `null | 'X' | 'O' | 'tie'`, modelled as `Option String`. -/
structure GameState where
  board : List String
  currentTurn : String
  gameStatus : String
  winner : Option String
  moves : Nat
deriving DecidableEq, Repr

/-- A room record (`server.js` lines 134-147).  The JavaScript field
`private` is renamed `privateFlag` because `private` is a Lean keyword.
The `timeout` field holds a `setTimeout` handle or `null` in the source;
here it is a `Bool` recording whether a live (uncancelled) inactivity
timer exists. -/
structure Room where
  id : String
  players : List Player
  gameState : GameState
  created : Nat
  privateFlag : Bool
  timeout : Bool
deriving DecidableEq, Repr

/-- The process-wide mutable state: `rooms` and `playerSockets`
(`server.js` lines 27-28), both JavaScript `Map`s, modelled as
insertion-ordered association lists. -/
structure ServerState where
  rooms : List (String × Room)
  playerSockets : List (String × String)
deriving DecidableEq, Repr

/-- `Map.get`: first entry with the given key, if any. -/
def mapGet {α : Type} (m : List (String × α)) (k : String) : Option α :=
  (m.find? (fun kv => kv.1 == k)).map (fun kv => kv.2)

/-- `Map.set`: replace in place if the key exists (JavaScript `Map.set`
keeps the insertion position of an existing key), else append. -/
def mapSet {α : Type} (m : List (String × α)) (k : String) (v : α) :
    List (String × α) :=
  if m.any (fun kv => kv.1 == k) then
    m.map (fun kv => if kv.1 == k then (k, v) else kv)
  else
    m ++ [(k, v)]

/-- `Map.delete`. -/
def mapDelete {α : Type} (m : List (String × α)) (k : String) :
    List (String × α) :=
  m.filter (fun kv => ¬(kv.1 == k))

/-- JavaScript read `board[i]` for an integer index: `undefined`
(i.e. `none`) when out of range. -/
def jsGet (l : List String) (i : Int) : Option String :=
  if 0 ≤ i ∧ i < (l.length : Int) then some (l.getD i.toNat "") else none

/-- JavaScript write `board[i] = v`.  Every call site is guarded by
`board[i] !== ''`, which fails for out-of-range indices, so the
out-of-range behaviour of the write is unreachable; in-range writes set
the cell. -/
def jsSet (l : List String) (i : Int) (v : String) : List String :=
  if 0 ≤ i then l.set i.toNat v else l

/-- The 8 winning line index triples of `checkWinner`
(`server.js` lines 350-354). -/
def winPatterns : List (Nat × Nat × Nat) :=
  [(0,1,2), (3,4,5), (6,7,8),
   (0,3,6), (1,4,7), (2,5,8),
   (0,4,8), (2,4,6)]

/-- `board[a] && board[a] === board[b] && board[a] === board[c]`
(`server.js` line 358): the only falsy string is the empty cell. -/
def lineWin (board : List String) (p : Nat × Nat × Nat) : Bool :=
  decide (board.getD p.1 "" ≠ "") &&
  (board.getD p.1 "" == board.getD p.2.1 "") &&
  (board.getD p.1 "" == board.getD p.2.2 "")

/-- `checkWinner` (`server.js` lines 349-364): the first winning pattern
decides the winner; otherwise a full board is a tie and anything else is
`null`. -/
def checkWinner (board : List String) : Option String :=
  match winPatterns.find? (fun p => lineWin board p) with
  | some p => some (board.getD p.1 "")
  | none => if board.all (fun cell => decide (cell ≠ "")) then some "tie" else none

/-- The move-validation and move-application logic inlined in the
`makeMove` handler (`server.js` lines 224-259), factored as the pure core
used by the handler: validation errors carry the emitted message; success
returns the updated state together with the `checkWinner` result that the
handler branches on. -/
def applyMove (gs : GameState) (index : Int) (symbol : String) :
    Except String (GameState × Option String) :=
  if gs.gameStatus ≠ "active" then .error "Game is not active"
  else if gs.currentTurn ≠ symbol then .error "Not your turn"
  else if jsGet gs.board index ≠ some "" then .error "Cell already occupied"
  else
    let board := jsSet gs.board index symbol
    let moves := gs.moves + 1
    match checkWinner board with
    | some w =>
        .ok ({ gs with board := board, moves := moves,
                       gameStatus := "finished", winner := some w }, some w)
    | none =>
        .ok ({ gs with board := board, moves := moves,
                       currentTurn := if gs.currentTurn = "X" then "O" else "X" },
             none)

/-- The turn flip `currentTurn === 'X' ? 'O' : 'X'` (`server.js` line 259). -/
def otherSymbol (s : String) : String :=
  if s = "X" then "O" else "X"

/-- Modelled from the spec: the room capacity `config.maxPlayersPerRoom` is
read from `config.json`, which is not part of the source tree; the spec
fixes the capacity at 2 ("room capacity (fixed at 2)"). -/
def maxPlayersPerRoom : Nat := 2

/-- The default avatar URL (`server.js` line 170); JavaScript
`avatar || default` treats both a missing and an empty-string avatar as
falsy, so absence is modelled as the empty string. -/
def defaultAvatar : String :=
  "https://cdn-icons-png.flaticon.com/512/149/149071.png"

/-- Target of a Socket.IO emission: `socket.emit` (the one connection) or
`io.to(room).emit` (every socket in the room's broadcast group). -/
inductive Target where
  | toSocket (sid : String)
  | toRoom (room : String)
deriving DecidableEq, Repr

/-- Emission payloads, one constructor per outbound event shape used by
the server.  The `chatMessage` payload drops the `uuidv4()` message id
(external randomness, not modelled); the `joinSuccess` payload is absent
because building it dereferences `req.headers` with `req` not in scope
(`server.js` line 205), so that emission is unreachable. -/
inductive Payload where
  | text (msg : String)
  | roomUpdate (players : List Player) (gameState : GameState) (roomId : String)
  | gameStart (players : List Player) (gameState : GameState)
  | gameEnd (winnerName : Option String) (gameState : GameState) (gtype : String)
  | moveUpdate (index : Int) (symbol : String) (gameState : GameState)
      (playerName : String)
  | gameReset (gameState : GameState) (resetBy : String)
  | playerReadyUpdate (playerId : String) (ready : Bool) (players : List Player)
  | chat (playerName : String) (avatar : String) (message : String)
      (timestamp : Nat)
  | playerLeft (gameState : GameState) (remainingPlayers : List Player)
deriving DecidableEq, Repr

/-- One emission: target, event name, payload. -/
structure Emit where
  target : Target
  event : String
  payload : Payload
deriving DecidableEq, Repr

/-- A freshly initialized room (`server.js` lines 134-147). -/
def newRoom (roomId : String) (now : Nat) (isPrivate : Bool) : Room :=
  { id := roomId
    players := []
    gameState :=
      { board := List.replicate 9 ""
        currentTurn := "X"
        gameStatus := "waiting"
        winner := none
        moves := 0 }
    created := now
    privateFlag := isPrivate
    timeout := false }

/-- `resetRoom` (`server.js` lines 366-384): cancels the timer, installs a
fresh game state whose status is `active` exactly when 2 players remain,
and clears every player's `ready` flag. -/
def resetRoom (s : ServerState) (roomId : String) : ServerState :=
  match mapGet s.rooms roomId with
  | none => s
  | some roomData =>
    let roomData :=
      { roomData with
        timeout := false
        gameState :=
          { board := List.replicate 9 ""
            currentTurn := "X"
            gameStatus := if roomData.players.length = 2 then "active" else "waiting"
            winner := none
            moves := 0 }
        players := roomData.players.map (fun p => { p with ready := false }) }
    { s with rooms := mapSet s.rooms roomId roomData }

/-- `leaveRoom` (`server.js` lines 386-411): filter the player out; an
empty room is deleted (its timer cleared); otherwise an `active` game is
forced to `finished` (the timer is NOT cleared here) and `playerLeft` then
`roomUpdate` are broadcast; a non-active room just broadcasts `roomUpdate`. -/
def leaveRoom (s : ServerState) (socketId roomId : String) :
    ServerState × List Emit :=
  match mapGet s.rooms roomId with
  | none => (s, [])
  | some roomData =>
    let players := roomData.players.filter (fun p => ¬(p.id == socketId))
    if players.length = 0 then
      ({ s with rooms := mapDelete s.rooms roomId }, [])
    else if roomData.gameState.gameStatus = "active" then
      let gameState := { roomData.gameState with gameStatus := "finished" }
      let roomData := { roomData with players := players, gameState := gameState }
      ({ s with rooms := mapSet s.rooms roomId roomData },
       [⟨.toRoom roomId, "playerLeft", .playerLeft gameState players⟩,
        ⟨.toRoom roomId, "roomUpdate", .roomUpdate players gameState roomId⟩])
    else
      let roomData := { roomData with players := players }
      ({ s with rooms := mapSet s.rooms roomId roomData },
       [⟨.toRoom roomId, "roomUpdate",
         .roomUpdate players roomData.gameState roomId⟩])

/-- The `joinRoom` handler (`server.js` lines 114-212).  After the accept
path has mutated the registry and emitted `roomUpdate` (and `gameStart` at
2 players), the source emits `joinSuccess` with an `inviteUrl` built from
`req.headers.origin`; `req` is not in scope inside the socket handler, so
evaluating it throws a ReferenceError and the surrounding `catch` emits
`error 'Failed to join room'` to the caller instead (`server.js` lines
202-211). -/
def handleJoinRoom (now : Nat) (s : ServerState)
    (sid room name avatar symbol : String) (isPrivate : Bool) :
    ServerState × List Emit :=
  if room = "" ∨ name = "" ∨ symbol = "" then
    (s, [⟨.toSocket sid, "error", .text "Missing required fields"⟩])
  else if 20 < name.length ∨ 10 < room.length then
    (s, [⟨.toSocket sid, "error", .text "Name or room ID too long"⟩])
  else
    -- leave previous room if any (the playerSockets entry is not deleted here)
    let s1ems := match mapGet s.playerSockets sid with
      | some prevRoom => leaveRoom s sid prevRoom
      | none => (s, [])
    let s1 := s1ems.1
    let ems1 := s1ems.2
    -- initialize room if it does not exist
    let s2 := if (mapGet s1.rooms room).isSome then s1
      else { s1 with rooms := mapSet s1.rooms room (newRoom room now isPrivate) }
    -- the lookup after the set above always succeeds; the default is dead
    let roomData := (mapGet s2.rooms room).getD (newRoom room now isPrivate)
    if maxPlayersPerRoom ≤ roomData.players.length then
      (s2, ems1 ++ [⟨.toSocket sid, "roomFull", .text "Room is full"⟩])
    else if roomData.players.any (fun p => p.symbol == symbol) then
      (s2, ems1 ++ [⟨.toSocket sid, "symbolTaken", .text "Symbol already taken"⟩])
    else
      let s3 := { s2 with playerSockets := mapSet s2.playerSockets sid room }
      let player : Player :=
        { id := sid
          name := name.trim
          avatar := if avatar = "" then defaultAvatar else avatar
          symbol := symbol
          joinedAt := now
          ready := false }
      let roomData1 := { roomData with players := roomData.players ++ [player] }
      let emUpdate : Emit :=
        ⟨.toRoom room, "roomUpdate",
         .roomUpdate roomData1.players roomData1.gameState room⟩
      if roomData1.players.length = 2 then
        let gameState :=
          { roomData1.gameState with gameStatus := "active", currentTurn := "X" }
        let roomData2 := { roomData1 with gameState := gameState, timeout := true }
        let s4 := { s3 with rooms := mapSet s3.rooms room roomData2 }
        (s4, ems1 ++ [emUpdate,
          ⟨.toRoom room, "gameStart", .gameStart roomData2.players gameState⟩,
          ⟨.toSocket sid, "error", .text "Failed to join room"⟩])
      else
        let s4 := { s3 with rooms := mapSet s3.rooms room roomData1 }
        (s4, ems1 ++ [emUpdate,
          ⟨.toSocket sid, "error", .text "Failed to join room"⟩])

/-- The `makeMove` handler (`server.js` lines 214-273): room lookup,
membership check, then the inlined move logic (`applyMove`); a decided
game clears the timer and broadcasts `gameEnd` (with the mover's display
name, or `null` on a tie); an undecided one broadcasts `moveUpdate`. -/
def handleMakeMove (s : ServerState) (sid room : String) (index : Int)
    (symbol : String) : ServerState × List Emit :=
  match mapGet s.rooms room with
  | none => (s, [⟨.toSocket sid, "error", .text "Room not found"⟩])
  | some roomData =>
    match roomData.players.find? (fun p => p.id == sid) with
    | none => (s, [⟨.toSocket sid, "error", .text "Player not in room"⟩])
    | some player =>
      match applyMove roomData.gameState index symbol with
      | .error msg => (s, [⟨.toSocket sid, "error", .text msg⟩])
      | .ok (gameState, winner) =>
        match winner with
        | some w =>
          let roomData := { roomData with gameState := gameState, timeout := false }
          ({ s with rooms := mapSet s.rooms room roomData },
           [⟨.toRoom room, "gameEnd",
             .gameEnd (if w = "tie" then none else some player.name) gameState
               (if w = "tie" then "tie" else "win")⟩])
        | none =>
          let roomData := { roomData with gameState := gameState }
          ({ s with rooms := mapSet s.rooms room roomData },
           [⟨.toRoom room, "moveUpdate",
             .moveUpdate index symbol gameState player.name⟩])

/-- The `resetGame` handler (`server.js` lines 275-292): silently ignores
an unknown room or a non-member; otherwise resets the room and broadcasts
`gameReset` carrying the room's (freshly reset) game state — the source
reads `roomData.gameState` after `resetRoom` reassigned it on the same
object, so the reset state is re-read here. -/
def handleResetGame (s : ServerState) (sid room : String) :
    ServerState × List Emit :=
  match mapGet s.rooms room with
  | none => (s, [])
  | some roomData =>
    match roomData.players.find? (fun p => p.id == sid) with
    | none => (s, [])
    | some player =>
      let s1 := resetRoom s room
      match mapGet s1.rooms room with
      | none => (s1, [])  -- unreachable: resetRoom keeps the room in the map
      | some roomData1 =>
        (s1, [⟨.toRoom room, "gameReset",
              .gameReset roomData1.gameState player.name⟩])

/-- Toggle the `ready` flag of the first player with the given id
(`player.ready = !player.ready` on the player found by `find`). -/
def toggleReady (ps : List Player) (sid : String) : List Player :=
  match ps with
  | [] => []
  | p :: rest =>
    if p.id == sid then { p with ready := !p.ready } :: rest
    else p :: toggleReady rest sid

/-- The `playerReady` handler (`server.js` lines 294-311). -/
def handlePlayerReady (s : ServerState) (sid room : String) :
    ServerState × List Emit :=
  match mapGet s.rooms room with
  | none => (s, [])
  | some roomData =>
    match roomData.players.find? (fun p => p.id == sid) with
    | none => (s, [])
    | some player =>
      let players := toggleReady roomData.players sid
      let roomData1 := { roomData with players := players }
      ({ s with rooms := mapSet s.rooms room roomData1 },
       [⟨.toRoom room, "playerReadyUpdate",
         .playerReadyUpdate sid (!player.ready) players⟩])

/-- The `chatMessage` handler (`server.js` lines 313-335): unknown room,
non-member and over-100-character (after trimming) messages are silently
dropped; otherwise the trimmed message is broadcast. -/
def handleChatMessage (now : Nat) (s : ServerState) (sid room message : String) :
    ServerState × List Emit :=
  match mapGet s.rooms room with
  | none => (s, [])
  | some roomData =>
    match roomData.players.find? (fun p => p.id == sid) with
    | none => (s, [])
    | some player =>
      if 100 < message.trim.length then (s, [])
      else
        (s, [⟨.toRoom room, "chatMessage",
             .chat player.name player.avatar message.trim now⟩])

/-- The `disconnect` handler (`server.js` lines 337-345). -/
def handleDisconnect (s : ServerState) (sid : String) :
    ServerState × List Emit :=
  match mapGet s.playerSockets sid with
  | none => (s, [])
  | some room =>
    let s1ems := leaveRoom s sid room
    ({ s1ems.1 with playerSockets := mapDelete s1ems.1.playerSockets sid },
     s1ems.2)

/-- The inactivity-timer callback (`server.js` lines 191-194): it can run
only while the room still exists and its `setTimeout` handle has not been
cleared (`timeout` armed); it broadcasts `gameTimeout` and resets the
room. -/
def timerFire (s : ServerState) (room : String) : ServerState × List Emit :=
  match mapGet s.rooms room with
  | none => (s, [])
  | some roomData =>
    if roomData.timeout then
      (resetRoom s room,
       [⟨.toRoom room, "gameTimeout", .text "Game timed out due to inactivity"⟩])
    else (s, [])

/-- The stale-room sweep threshold, 30 minutes in milliseconds
(`server.js` line 416). -/
def inactiveThreshold : Nat := 30 * 60 * 1000

/-- The periodic sweep (`server.js` lines 414-424): deletes empty rooms
older than the threshold.  `now - created` is truncated natural
subtraction; the source only ever runs it with `now ≥ created`. -/
def sweepRooms (now : Nat) (s : ServerState) : ServerState :=
  let keep := fun (kv : String × Room) =>
    ¬(inactiveThreshold < now - kv.2.created ∧ kv.2.players.length = 0)
  { s with rooms := s.rooms.filter keep }

/-- Inbound events: the five client events, the implicit disconnect, the
inactivity-timer firing and the periodic sweep tick. -/
inductive Event where
  | joinRoom (sid room name avatar symbol : String) (isPrivate : Bool)
  | makeMove (sid room : String) (index : Int) (symbol : String)
  | resetGame (sid room : String)
  | playerReady (sid room : String)
  | chatMessage (sid room message : String)
  | disconnect (sid : String)
  | timerFires (room : String)
  | sweep
deriving DecidableEq, Repr

/-- One step of the event loop: dispatch to the matching handler. -/
def step (now : Nat) (s : ServerState) (e : Event) : ServerState × List Emit :=
  match e with
  | .joinRoom sid room name avatar symbol isPrivate =>
      handleJoinRoom now s sid room name avatar symbol isPrivate
  | .makeMove sid room index symbol => handleMakeMove s sid room index symbol
  | .resetGame sid room => handleResetGame s sid room
  | .playerReady sid room => handlePlayerReady s sid room
  | .chatMessage sid room message => handleChatMessage now s sid room message
  | .disconnect sid => handleDisconnect s sid
  | .timerFires room => timerFire s room
  | .sweep => (sweepRooms now s, [])

/-- The state at process start: both registries empty. -/
def initState : ServerState := ⟨[], []⟩

/-- Run a sequence of events, discarding emissions. -/
def run (now : Nat) (s : ServerState) (es : List Event) : ServerState :=
  es.foldl (fun acc e => (step now acc e).1) s

/-- The server states reachable from process start by any event sequence. -/
inductive Reachable : ServerState → Prop where
  | init : Reachable initState
  | next (now : Nat) (e : Event) {s : ServerState} :
      Reachable s → Reachable (step now s e).1

/-- The originating connection of a client event, if any. -/
def callerOf : Event → Option String
  | .joinRoom sid _ _ _ _ _ => some sid
  | .makeMove sid _ _ _ => some sid
  | .resetGame sid _ => some sid
  | .playerReady sid _ => some sid
  | .chatMessage sid _ _ => some sid
  | .disconnect sid => some sid
  | .timerFires _ => none
  | .sweep => none

/-- The outbound event names that carry an error. -/
def errEvents : List String := ["error", "roomFull", "symbolTaken"]

/-- Whether an event is a `joinRoom` request. -/
def Event.isJoin : Event → Bool
  | .joinRoom _ _ _ _ _ _ => true
  | _ => false

/-- Whether the board contains a completed line of the given symbol. -/
def hasLineOf (board : List String) (s : String) : Bool :=
  winPatterns.any (fun p => lineWin board p && (board.getD p.1 "" == s))

/-- Boards reachable from the empty board by alternating legal single-cell
moves: `X` starts, each move needs an empty cell and a game that is not
yet decided (`makeMove` only accepts moves while `gameStatus` is
`active`, and a decided evaluation sets it to `finished`), and the turn
alternates. -/
inductive ReachableBoard : List String → String → Prop where
  | init : ReachableBoard (List.replicate 9 "") "X"
  | move (board : List String) (turn : String) (index : Int)
      (hactive : checkWinner board = none)
      (hempty : jsGet board index = some "")
      (hprev : ReachableBoard board turn) :
      ReachableBoard (jsSet board index turn) (otherSymbol turn)

/-- The room-membership invariant: at most 2 players, pairwise-distinct
symbols. -/
def RoomOK (r : Room) : Prop :=
  r.players.length ≤ 2 ∧ (r.players.map (fun p => p.symbol)).Nodup

/-- Every registered room satisfies the membership invariant. -/
def roomsInv (s : ServerState) : Prop := ∀ kv ∈ s.rooms, RoomOK kv.2

/-- Claim C3: a successful move (status `active`, submitted symbol equal to
`currentTurn`, addressed cell in range and empty) writes the symbol into the
chosen cell, increments the move counter by one and evaluates the board; if
the evaluation decides a winner or a tie, the status becomes `finished` and
the winner is recorded; otherwise `currentTurn` becomes the symbol that did
not just move. -/
theorem applyMove_success_spec (gs : GameState) (index : Int) (symbol : String)
    (h1 : gs.gameStatus = "active") (h2 : gs.currentTurn = symbol)
    (h3 : jsGet gs.board index = some "") (h4 : symbol = "X" ∨ symbol = "O") :
    ∃ gs2 w, applyMove gs index symbol = .ok (gs2, w) ∧
      gs2.board = jsSet gs.board index symbol ∧
      gs2.moves = gs.moves + 1 ∧
      w = checkWinner (jsSet gs.board index symbol) ∧
      (w ≠ none → gs2.gameStatus = "finished" ∧ gs2.winner = w) ∧
      (w = none → gs2.currentTurn = otherSymbol symbol ∧ gs2.currentTurn ≠ symbol ∧
        gs2.gameStatus = "active" ∧ gs2.winner = gs.winner) := by
  have hng : ¬(gs.gameStatus ≠ "active") := by simp [h1]
  have hnt : ¬(gs.currentTurn ≠ symbol) := by simp [h2]
  have hnc : ¬(jsGet gs.board index ≠ some "") := by simp [h3]
  cases hw : checkWinner (jsSet gs.board index symbol) with
  | some w =>
    have heq : applyMove gs index symbol =
        .ok ({ gs with
                board := jsSet gs.board index symbol
                moves := gs.moves + 1
                gameStatus := "finished"
                winner := some w }, some w) := by
      unfold applyMove
      rw [if_neg hng, if_neg hnt, if_neg hnc]
      simp [hw]
    exact ⟨_, some w, heq, rfl, rfl, rfl, fun _ => ⟨rfl, rfl⟩,
      fun h => by simp at h⟩
  | none =>
    have heq : applyMove gs index symbol =
        .ok ({ gs with
                board := jsSet gs.board index symbol
                moves := gs.moves + 1
                currentTurn := if gs.currentTurn = "X" then "O" else "X" }, none) := by
      unfold applyMove
      rw [if_neg hng, if_neg hnt, if_neg hnc]
      simp [hw]
    refine ⟨_, none, heq, rfl, rfl, rfl, fun h => absurd rfl h, fun _ => ?_⟩
    refine ⟨by simp [h2, otherSymbol], ?_, h1, rfl⟩
    show (if gs.currentTurn = "X" then "O" else "X") ≠ symbol
    rw [h2]
    rcases h4 with h4 | h4 <;> simp [h4]

/-- Witness: claim C3 applied to the first move of a fresh game. -/
theorem applyMove_witness :
    ∃ gs2 w, applyMove ⟨List.replicate 9 "", "X", "active", none, 0⟩ 0 "X" =
      .ok (gs2, w) ∧
      gs2.board = jsSet (List.replicate 9 "") 0 "X" ∧
      gs2.moves = 0 + 1 ∧
      w = checkWinner (jsSet (List.replicate 9 "") 0 "X") ∧
      (w ≠ none → gs2.gameStatus = "finished" ∧ gs2.winner = w) ∧
      (w = none → gs2.currentTurn = otherSymbol "X" ∧ gs2.currentTurn ≠ "X" ∧
        gs2.gameStatus = "active" ∧ gs2.winner = none) :=
  applyMove_success_spec ⟨List.replicate 9 "", "X", "active", none, 0⟩ 0 "X"
    rfl rfl (by decide) (Or.inl rfl)

/-- Counterexample to claim C4 as stated: the move logic has no distinct
OutOfRange rejection — the out-of-range indices 9 and -1 are rejected
through the cell-occupied check (reading an out-of-range index yields
`undefined`, which differs from the empty string), with the message
`Cell already occupied`. -/
theorem makeMove_outOfRange_is_cellOccupied :
    applyMove ⟨List.replicate 9 "", "X", "active", none, 0⟩ 9 "X" =
      .error "Cell already occupied" ∧
    applyMove ⟨List.replicate 9 "", "X", "active", none, 0⟩ (-1) "X" =
      .error "Cell already occupied" := by
  exact ⟨rfl, rfl⟩

/-- Claim C4 (amended): the rejection cases of the move logic are exactly
InvalidState (`Game is not active`) when the status is not `active`,
WrongTurn (`Not your turn`) when the submitted symbol differs from
`currentTurn`, and CellOccupied (`Cell already occupied`) when the addressed
cell does not read as an empty string — which covers every out-of-range
index on the 9-cell board, since there is no distinct OutOfRange error; no
other error message is possible, and every error path leaves the server
state unchanged. -/
theorem applyMove_error_spec (gs : GameState) (index : Int) (symbol : String) :
    (gs.gameStatus ≠ "active" → applyMove gs index symbol = .error "Game is not active") ∧
    (gs.gameStatus = "active" → gs.currentTurn ≠ symbol →
      applyMove gs index symbol = .error "Not your turn") ∧
    (gs.gameStatus = "active" → gs.currentTurn = symbol →
      jsGet gs.board index ≠ some "" →
      applyMove gs index symbol = .error "Cell already occupied") ∧
    (gs.board.length = 9 → ¬(0 ≤ index ∧ index < 9) →
      jsGet gs.board index = none) ∧
    (∀ e, applyMove gs index symbol = .error e →
      e = "Game is not active" ∨ e = "Not your turn" ∨ e = "Cell already occupied") ∧
    (∀ (s : ServerState) (sid room : String),
      ((handleMakeMove s sid room index symbol).2.any
        (fun em => em.event == "error")) = true →
      (handleMakeMove s sid room index symbol).1 = s) := by
  refine ⟨?_, ?_, ?_, ?_, ?_, ?_⟩
  · intro h; unfold applyMove; rw [if_pos h]
  · intro h1 h2; unfold applyMove; rw [if_neg (by simp [h1]), if_pos h2]
  · intro h1 h2 h3
    unfold applyMove
    rw [if_neg (by simp [h1]), if_neg (by simp [h2]), if_pos h3]
  · intro hlen hrange
    unfold jsGet
    rw [if_neg]
    rw [hlen]
    exact_mod_cast hrange
  · intro e he
    unfold applyMove at he
    by_cases h1 : gs.gameStatus ≠ "active"
    · rw [if_pos h1] at he
      injection he with h
      subst h
      simp
    · rw [if_neg h1] at he
      by_cases h2 : gs.currentTurn ≠ symbol
      · rw [if_pos h2] at he
        injection he with h
        subst h
        simp
      · rw [if_neg h2] at he
        by_cases h3 : jsGet gs.board index ≠ some ""
        · rw [if_pos h3] at he
          injection he with h
          subst h
          simp
        · rw [if_neg h3] at he
          exfalso
          rcases hcw : checkWinner (jsSet gs.board index symbol) with _ | w <;>
            simp [hcw] at he
  · intro s sid room hany
    rcases hr : mapGet s.rooms room with _ | roomData
    · simp [handleMakeMove, hr]
    · rcases hp : roomData.players.find? (fun p => p.id == sid) with _ | player
      · simp [handleMakeMove, hr, hp]
      · rcases hok : applyMove roomData.gameState index symbol with msg | gw
        · simp [handleMakeMove, hr, hp, hok]
        · obtain ⟨gs2, w⟩ := gw
          rcases w with _ | ww
          · simp [handleMakeMove, hr, hp, hok] at hany
          · simp [handleMakeMove, hr, hp, hok] at hany

/-- Witness: claim C4 (amended) applied at a wrong-turn move and at an
occupied cell. -/
theorem applyMove_error_witness :
    applyMove ⟨List.replicate 9 "", "O", "active", none, 0⟩ 9 "X" =
      .error "Not your turn" ∧
    applyMove ⟨["X", "", "", "", "", "", "", "", ""], "X", "active", none, 1⟩
      0 "X" = .error "Cell already occupied" :=
  ⟨(applyMove_error_spec ⟨List.replicate 9 "", "O", "active", none, 0⟩
      9 "X").2.1 rfl (by decide),
   (applyMove_error_spec ⟨["X", "", "", "", "", "", "", "", ""], "X",
      "active", none, 1⟩ 0 "X").2.2.1 rfl rfl (by decide)⟩

theorem checkWinner_none_no_line (b : List String) (h : checkWinner b = none) :
    ∀ p ∈ winPatterns, lineWin b p = false := by
  intro p hp
  rcases hf : winPatterns.find? (fun q => lineWin b q) with _ | q
  · have := List.find?_eq_none.mp hf p hp
    simpa using this
  · exfalso
    unfold checkWinner at h
    rw [hf] at h
    simp at h

theorem getD_set_ne (l : List String) (n m : Nat) (v d : String) (h : n ≠ m) :
    (l.set n v).getD m d = l.getD m d := by
  simp [List.getD_eq_getElem?_getD, List.getElem?_set_ne h]

theorem getD_set_self (l : List String) (n : Nat) (v d : String)
    (h : n < l.length) : (l.set n v).getD n d = v := by
  simp [List.getD_eq_getElem?_getD, List.getElem?_set_self h]

theorem lineWin_set_value (b : List String) (i : Nat) (v : String)
    (hi : i < b.length) (p : Nat × Nat × Nat)
    (hold : lineWin b p = false) (hnew : lineWin (b.set i v) p = true) :
    (b.set i v).getD p.1 "" = v := by
  by_cases e1 : i = p.1
  · subst e1
    exact getD_set_self b p.1 v "" hi
  · by_cases e2 : i = p.2.1
    · simp only [lineWin, Bool.and_eq_true, beq_iff_eq, decide_eq_true_eq] at hnew
      obtain ⟨⟨hne, hab⟩, hac⟩ := hnew
      rw [hab]
      subst e2
      exact getD_set_self b p.2.1 v "" hi
    · by_cases e3 : i = p.2.2
      · simp only [lineWin, Bool.and_eq_true, beq_iff_eq, decide_eq_true_eq] at hnew
        obtain ⟨⟨hne, hab⟩, hac⟩ := hnew
        rw [hac]
        subst e3
        exact getD_set_self b p.2.2 v "" hi
      · exfalso
        have hsame : lineWin (b.set i v) p = lineWin b p := by
          unfold lineWin
          rw [getD_set_ne b i p.1 v "" e1, getD_set_ne b i p.2.1 v "" e2,
            getD_set_ne b i p.2.2 v "" e3]
        rw [hsame, hold] at hnew
        exact Bool.false_ne_true hnew

theorem step_single_winner (b : List String) (turn : String) (i : Int)
    (hcw : checkWinner b = none) (hemp : jsGet b i = some "") :
    ¬(hasLineOf (jsSet b i turn) "X" = true ∧
      hasLineOf (jsSet b i turn) "O" = true) := by
  have hin : 0 ≤ i ∧ i < (b.length : Int) := by
    unfold jsGet at hemp
    by_cases hr : 0 ≤ i ∧ i < (b.length : Int)
    · exact hr
    · rw [if_neg hr] at hemp
      exact absurd hemp (by simp)
  have hlt : i.toNat < b.length := by
    omega
  have hset : jsSet b i turn = b.set i.toNat turn := by
    unfold jsSet
    rw [if_pos hin.1]
  rintro ⟨hx, ho⟩
  rw [hset] at hx ho
  obtain ⟨p, hp, hpx⟩ := List.any_eq_true.mp hx
  obtain ⟨q, hq, hqo⟩ := List.any_eq_true.mp ho
  simp only [Bool.and_eq_true, beq_iff_eq] at hpx hqo
  have hvx := lineWin_set_value b i.toNat turn hlt p
    (checkWinner_none_no_line b hcw p hp) hpx.1
  have hvo := lineWin_set_value b i.toNat turn hlt q
    (checkWinner_none_no_line b hcw q hq) hqo.1
  rw [hpx.2] at hvx
  rw [hqo.2] at hvo
  rw [← hvo] at hvx
  exact absurd hvx (by decide)

/-- Claim C9: on every board reachable from the empty board by alternating
legal single-cell moves (each move requires an empty cell and a game that is
not yet decided, exactly as `makeMove` enforces), the winner evaluation
yields at most one winning symbol: no reachable board has a filled line of
`X` and a filled line of `O` simultaneously. -/
theorem reachable_board_single_winner (b : List String) (t : String)
    (h : ReachableBoard b t) :
    ¬(hasLineOf b "X" = true ∧ hasLineOf b "O" = true) := by
  cases h with
  | init => decide
  | move board turn index hactive hempty hprev =>
    exact step_single_winner board turn index hactive hempty

/-- Witness: claim C9 applied to the board reached by the single opening
move of `X`. -/
theorem reachable_board_witness :
    ¬(hasLineOf (jsSet (List.replicate 9 "") 0 "X") "X" = true ∧
      hasLineOf (jsSet (List.replicate 9 "") 0 "X") "O" = true) :=
  reachable_board_single_winner _ _
    (ReachableBoard.move _ "X" 0 (by decide) (by decide) ReachableBoard.init)

theorem mapGet_ok {α : Type} (P : α → Prop) (m : List (String × α)) (k : String)
    (v : α) (hm : ∀ kv ∈ m, P kv.2) (h : mapGet m k = some v) : P v := by
  unfold mapGet at h
  rcases hf : m.find? (fun kv => kv.1 == k) with _ | kv
  · rw [hf] at h
    simp at h
  · rw [hf] at h
    simp at h
    subst h
    exact hm kv (List.mem_of_find?_eq_some hf)

theorem getD_ok {α : Type} (P : α → Prop) (m : List (String × α)) (k : String)
    (d : α) (hm : ∀ kv ∈ m, P kv.2) (hd : P d) : P ((mapGet m k).getD d) := by
  rcases hf : mapGet m k with _ | v
  · exact hd
  · exact mapGet_ok P m k v hm hf

theorem mapSet_ok {α : Type} (P : α → Prop) (m : List (String × α)) (k : String)
    (v : α) (hm : ∀ kv ∈ m, P kv.2) (hv : P v) :
    ∀ kv ∈ mapSet m k v, P kv.2 := by
  intro kv hkv
  unfold mapSet at hkv
  split at hkv
  · obtain ⟨kv0, hkv0, heq⟩ := List.mem_map.mp hkv
    by_cases hk : kv0.1 == k
    · rw [if_pos hk] at heq
      rw [← heq]
      exact hv
    · rw [if_neg hk] at heq
      rw [← heq]
      exact hm kv0 hkv0
  · rcases List.mem_append.mp hkv with h | h
    · exact hm kv h
    · simp at h
      rw [h]
      exact hv

theorem mapDelete_ok {α : Type} (P : α → Prop) (m : List (String × α))
    (k : String) (hm : ∀ kv ∈ m, P kv.2) : ∀ kv ∈ mapDelete m k, P kv.2 := by
  intro kv hkv
  exact hm kv (List.mem_of_mem_filter hkv)

theorem roomOK_of_players_eq (r q : Room) (h : RoomOK r)
    (he : q.players = r.players) : RoomOK q := by
  unfold RoomOK at h ⊢
  rw [he]
  exact h

theorem filter_players_ok (r : Room) (f : Player → Bool) (h : RoomOK r) :
    RoomOK { r with players := r.players.filter f } := by
  constructor
  · exact le_trans (List.length_filter_le f r.players) h.1
  · exact ((List.filter_sublist r.players).map (fun p => p.symbol)).nodup h.2

theorem map_clear_ready_ok (r : Room) (gs : GameState) (tmo : Bool)
    (h : RoomOK r) :
    RoomOK { r with players := r.players.map (fun p => { p with ready := false })
                    gameState := gs
                    timeout := tmo } := by
  constructor
  · rw [List.length_map]
    exact h.1
  · have : (r.players.map (fun p => { p with ready := false })).map
        (fun p => p.symbol) = r.players.map (fun p => p.symbol) := by
      rw [List.map_map]
      rfl
    rw [this]
    exact h.2

theorem toggleReady_symbols (ps : List Player) (sid : String) :
    (toggleReady ps sid).map (fun p => p.symbol) = ps.map (fun p => p.symbol) ∧
    (toggleReady ps sid).length = ps.length := by
  induction ps with
  | nil => exact ⟨rfl, rfl⟩
  | cons p rest ih =>
    unfold toggleReady
    by_cases h : p.id == sid
    · rw [if_pos h]
      exact ⟨rfl, rfl⟩
    · rw [if_neg h]
      simp only [List.map_cons, List.length_cons]
      exact ⟨by rw [ih.1], by rw [ih.2]⟩

theorem toggleReady_room_ok (r : Room) (sid : String) (h : RoomOK r) :
    RoomOK { r with players := toggleReady r.players sid } := by
  obtain ⟨hsym, hlen⟩ := toggleReady_symbols r.players sid
  constructor
  · rw [hlen]
    exact h.1
  · rw [hsym]
    exact h.2

theorem newRoom_ok (roomId : String) (now : Nat) (isPrivate : Bool) :
    RoomOK (newRoom roomId now isPrivate) := by
  constructor <;> simp [newRoom]

theorem leaveRoom_inv (s : ServerState) (sid roomId : String)
    (h : roomsInv s) : roomsInv (leaveRoom s sid roomId).1 := by
  unfold leaveRoom
  rcases hr : mapGet s.rooms roomId with _ | roomData
  · exact h
  · have hok : RoomOK roomData := mapGet_ok RoomOK s.rooms roomId roomData h hr
    dsimp only
    split
    · exact mapDelete_ok RoomOK s.rooms roomId h
    · split
      · exact mapSet_ok RoomOK s.rooms roomId _ h
          (filter_players_ok { roomData with
            gameState := { roomData.gameState with gameStatus := "finished" } }
            _ (by exact hok))
      · exact mapSet_ok RoomOK s.rooms roomId _ h (filter_players_ok roomData _ hok)

theorem resetRoom_inv (s : ServerState) (roomId : String) (h : roomsInv s) :
    roomsInv (resetRoom s roomId) := by
  unfold resetRoom
  rcases hr : mapGet s.rooms roomId with _ | roomData
  · exact h
  · have hok : RoomOK roomData := mapGet_ok RoomOK s.rooms roomId roomData h hr
    exact mapSet_ok RoomOK s.rooms roomId _ h (map_clear_ready_ok roomData _ _ hok)

theorem handleJoinRoom_inv (now : Nat) (s : ServerState)
    (sid room name avatar symbol : String) (isPrivate : Bool) (h : roomsInv s) :
    roomsInv (handleJoinRoom now s sid room name avatar symbol isPrivate).1 := by
  unfold handleJoinRoom
  split
  · exact h
  · split
    · exact h
    · have h1 : roomsInv (match mapGet s.playerSockets sid with
        | some prevRoom => leaveRoom s sid prevRoom
        | none => (s, [])).1 := by
        rcases mapGet s.playerSockets sid with _ | prevRoom
        · exact h
        · exact leaveRoom_inv s sid prevRoom h
      set s1p := (match mapGet s.playerSockets sid with
        | some prevRoom => leaveRoom s sid prevRoom
        | none => (s, [])) with hs1
      dsimp only
      set s1 := s1p.1 with hs1v
      have h2 : roomsInv (if (mapGet s1.rooms room).isSome then s1
          else { s1 with rooms := mapSet s1.rooms room (newRoom room now isPrivate) }) := by
        split
        · exact h1
        · exact fun kv hkv =>
            mapSet_ok RoomOK s1.rooms room _ h1 (newRoom_ok room now isPrivate) kv hkv
      set s2 := (if (mapGet s1.rooms room).isSome then s1
        else { s1 with rooms := mapSet s1.rooms room (newRoom room now isPrivate) }) with hs2
      have hrok : RoomOK ((mapGet s2.rooms room).getD (newRoom room now isPrivate)) :=
        getD_ok RoomOK s2.rooms room _ h2 (newRoom_ok room now isPrivate)
      set roomData := (mapGet s2.rooms room).getD (newRoom room now isPrivate) with hrd
      split
      · exact h2
      · split
        · exact h2
        · rename_i hfull htaken
          have hlen : roomData.players.length + 1 ≤ 2 := by
            unfold maxPlayersPerRoom at hfull
            omega
          have hns : symbol ∉ roomData.players.map (fun p => p.symbol) := by
            intro hmem
            obtain ⟨p, hpmem, hpeq⟩ := List.mem_map.mp hmem
            have : roomData.players.any (fun q => q.symbol == symbol) = true :=
              List.any_eq_true.mpr
                ⟨p, hpmem, show (p.symbol == symbol) = true from beq_iff_eq.mpr hpeq⟩
            exact htaken this
          have hok1 : ∀ av : String, RoomOK { roomData with players :=
              roomData.players ++
              [{ id := sid
                 name := name.trim
                 avatar := av
                 symbol := symbol
                 joinedAt := now
                 ready := false }] } := by
            intro av
            constructor
            · rw [List.length_append]
              simpa using hlen
            · rw [List.map_append]
              rw [List.nodup_append]
              refine ⟨hrok.2, List.nodup_singleton _, ?_⟩
              intro x hx hx1
              simp at hx1
              rw [hx1] at hx
              exact hns hx
          split <;> split <;> intro kv hkv <;>
            refine mapSet_ok RoomOK _ room _ h2 ?_ kv hkv <;>
            exact roomOK_of_players_eq _ _ (hok1 _) rfl

theorem handleMakeMove_inv (s : ServerState) (sid room : String) (index : Int)
    (symbol : String) (h : roomsInv s) :
    roomsInv (handleMakeMove s sid room index symbol).1 := by
  unfold handleMakeMove
  rcases hr : mapGet s.rooms room with _ | roomData
  · exact h
  · have hok : RoomOK roomData := mapGet_ok RoomOK s.rooms room roomData h hr
    rcases hp : roomData.players.find? (fun p => p.id == sid) with _ | player
    · simp only [hp]
      exact h
    · simp only [hp]
      rcases ha : applyMove roomData.gameState index symbol with msg | gw
      · simp only [ha]
        exact h
      · simp only [ha]
        obtain ⟨gs2, w⟩ := gw
        rcases w with _ | ww <;> intro kv hkv <;>
          refine mapSet_ok RoomOK s.rooms room _ h ?_ kv hkv <;>
          exact roomOK_of_players_eq _ _ hok rfl

theorem handleResetGame_inv (s : ServerState) (sid room : String)
    (h : roomsInv s) : roomsInv (handleResetGame s sid room).1 := by
  unfold handleResetGame
  rcases hr : mapGet s.rooms room with _ | roomData
  · exact h
  · rcases hp : roomData.players.find? (fun p => p.id == sid) with _ | player
    · simp only [hp]
      exact h
    · simp only [hp]
      have h1 : roomsInv (resetRoom s room) := resetRoom_inv s room h
      rcases h2 : mapGet (resetRoom s room).rooms room with _ | roomData1
      · simp only [h2]
        exact h1
      · simp only [h2]
        exact h1

theorem handlePlayerReady_inv (s : ServerState) (sid room : String)
    (h : roomsInv s) : roomsInv (handlePlayerReady s sid room).1 := by
  unfold handlePlayerReady
  rcases hr : mapGet s.rooms room with _ | roomData
  · exact h
  · have hok : RoomOK roomData := mapGet_ok RoomOK s.rooms room roomData h hr
    rcases hp : roomData.players.find? (fun p => p.id == sid) with _ | player
    · simp only [hp]
      exact h
    · simp only [hp]
      intro kv hkv
      refine mapSet_ok RoomOK s.rooms room _ h ?_ kv hkv
      exact toggleReady_room_ok roomData sid hok

theorem handleChatMessage_inv (now : Nat) (s : ServerState)
    (sid room message : String) (h : roomsInv s) :
    roomsInv (handleChatMessage now s sid room message).1 := by
  unfold handleChatMessage
  rcases hr : mapGet s.rooms room with _ | roomData
  · exact h
  · rcases hp : roomData.players.find? (fun p => p.id == sid) with _ | player
    · simp only [hp]
      exact h
    · simp only [hp]
      split
      · exact h
      · exact h

theorem handleDisconnect_inv (s : ServerState) (sid : String)
    (h : roomsInv s) : roomsInv (handleDisconnect s sid).1 := by
  unfold handleDisconnect
  rcases hr : mapGet s.playerSockets sid with _ | room
  · exact h
  · exact leaveRoom_inv s sid room h

theorem timerFire_inv (s : ServerState) (room : String) (h : roomsInv s) :
    roomsInv (timerFire s room).1 := by
  unfold timerFire
  rcases hr : mapGet s.rooms room with _ | roomData
  · exact h
  · simp only [hr]
    split
    · exact resetRoom_inv s room h
    · exact h

theorem sweepRooms_inv (now : Nat) (s : ServerState) (h : roomsInv s) :
    roomsInv (sweepRooms now s) := by
  intro kv hkv
  exact h kv (List.mem_of_mem_filter hkv)

theorem step_inv (now : Nat) (s : ServerState) (e : Event) (h : roomsInv s) :
    roomsInv (step now s e).1 := by
  cases e with
  | joinRoom sid room name avatar symbol isPrivate =>
    exact handleJoinRoom_inv now s sid room name avatar symbol isPrivate h
  | makeMove sid room index symbol => exact handleMakeMove_inv s sid room index symbol h
  | resetGame sid room => exact handleResetGame_inv s sid room h
  | playerReady sid room => exact handlePlayerReady_inv s sid room h
  | chatMessage sid room message => exact handleChatMessage_inv now s sid room message h
  | disconnect sid => exact handleDisconnect_inv s sid h
  | timerFires room => exact timerFire_inv s room h
  | sweep => exact sweepRooms_inv now s h

/-- Claim C5: in every reachable server state, every room in the registry
holds at most 2 players, and no two of its players share a symbol; the join
handler preserves this by rejecting a full room and a duplicate symbol, and
no other operation adds players. -/
theorem reachable_roomsInv (s : ServerState) (h : Reachable s) :
    ∀ kv ∈ s.rooms, kv.2.players.length ≤ 2 ∧
      (kv.2.players.map (fun p => p.symbol)).Nodup := by
  induction h with
  | init => intro kv hkv; simp [initState] at hkv
  | next now e hs ih => exact step_inv now _ e ih

/-- Witness: claim C5 applied to the state reached by one join, at the room
it creates. -/
theorem roomsInv_witness :
    (("R", ({ id := "R"
              players := [{ id := "s1"
                            name := "Alice".trim
                            avatar := defaultAvatar
                            symbol := "X"
                            joinedAt := 0
                            ready := false }]
              gameState :=
                { board := List.replicate 9 ""
                  currentTurn := "X"
                  gameStatus := "waiting"
                  winner := none
                  moves := 0 }
              created := 0
              privateFlag := false
              timeout := false } : Room)) : String × Room) ∈
      (step 0 initState (.joinRoom "s1" "R" "Alice" "" "X" false)).1.rooms ∧
    ([{ id := "s1", name := "Alice".trim, avatar := defaultAvatar,
        symbol := "X", joinedAt := 0, ready := false }] : List Player).length ≤ 2 ∧
    (([{ id := "s1", name := "Alice".trim, avatar := defaultAvatar,
         symbol := "X", joinedAt := 0, ready := false }] : List Player).map
      (fun p => p.symbol)).Nodup :=
  ⟨List.Mem.head _,
   reachable_roomsInv _
     (Reachable.next 0 (.joinRoom "s1" "R" "Alice" "" "X" false) Reachable.init)
     _ (List.Mem.head _)⟩

theorem mapGet_mapSet_self {α : Type} (m : List (String × α)) (k : String) (v : α) :
    mapGet (mapSet m k v) k = some v := by
  induction m with
  | nil => simp [mapGet, mapSet]
  | cons kv0 rest ih =>
    by_cases h0 : kv0.1 == k
    · have he : kv0.1 = k := beq_iff_eq.mp h0
      simp [mapGet, mapSet, he]
    · have he0 : ¬(kv0.1 = k) := by simpa using h0
      have hs : mapSet (kv0 :: rest) k v = kv0 :: mapSet rest k v := by
        by_cases hr : rest.any (fun kv => kv.1 == k) <;> simp [mapSet, he0, hr]
      rw [hs]
      unfold mapGet
      rw [List.find?_cons_of_neg _ (by simpa using h0)]
      unfold mapGet at ih
      exact ih

theorem mapGet_mapDelete_self {α : Type} (m : List (String × α)) (k : String) :
    mapGet (mapDelete m k) k = none := by
  unfold mapGet mapDelete
  rw [List.find?_eq_none.mpr]
  · rfl
  · intro x hx
    have := (List.mem_filter.mp hx).2
    simpa using this

/-- Counterexample to claim C6 as stated: `X` wins in room `R`, the loser
leaves, a new player joins — which re-activates the room without resetting
board or winner — and then leaves again; this non-last removal during
`active` status yields `finished` with winner `X`, not the null winner the
claim requires. -/
theorem abandonment_with_stale_winner :
    (mapGet (run 0 initState
      [.joinRoom "s1" "R" "Alice" "" "X" false,
       .joinRoom "s2" "R" "Bob" "" "O" false,
       .makeMove "s1" "R" 0 "X", .makeMove "s2" "R" 3 "O",
       .makeMove "s1" "R" 1 "X", .makeMove "s2" "R" 4 "O",
       .makeMove "s1" "R" 2 "X",
       .disconnect "s2",
       .joinRoom "s3" "R" "Carol" "" "O" false]).rooms "R").map
      (fun r => (r.gameState.gameStatus, r.gameState.winner)) =
      some ("active", some "X") ∧
    (mapGet (run 0 initState
      [.joinRoom "s1" "R" "Alice" "" "X" false,
       .joinRoom "s2" "R" "Bob" "" "O" false,
       .makeMove "s1" "R" 0 "X", .makeMove "s2" "R" 3 "O",
       .makeMove "s1" "R" 1 "X", .makeMove "s2" "R" 4 "O",
       .makeMove "s1" "R" 2 "X",
       .disconnect "s2",
       .joinRoom "s3" "R" "Carol" "" "O" false,
       .disconnect "s3"]).rooms "R").map
      (fun r => (r.gameState.gameStatus, r.gameState.winner,
        r.players.map (fun p => p.id))) =
      some ("finished", some "X", ["s1"]) := by
  decide

/-- Claim C6 (amended): removing the last player of a room deletes the room
from the registry; removing a non-last player while the status is `active`
transitions the game to `finished` with the winner field left unchanged
(null except when the room was re-activated by a join after a finished,
un-reset game), and in every case the remaining player records are exactly
the original ones with the leaver filtered out, nothing else cleared. -/
theorem leaveRoom_spec (s : ServerState) (sid roomId : String) (roomData : Room)
    (h : mapGet s.rooms roomId = some roomData) :
    ((roomData.players.filter (fun p => ¬(p.id == sid))).length = 0 →
      mapGet (leaveRoom s sid roomId).1.rooms roomId = none) ∧
    ((roomData.players.filter (fun p => ¬(p.id == sid))).length ≠ 0 →
      roomData.gameState.gameStatus = "active" →
      mapGet (leaveRoom s sid roomId).1.rooms roomId = some
        { roomData with
          players := roomData.players.filter (fun p => ¬(p.id == sid))
          gameState := { roomData.gameState with gameStatus := "finished" } }) ∧
    ((roomData.players.filter (fun p => ¬(p.id == sid))).length ≠ 0 →
      roomData.gameState.gameStatus ≠ "active" →
      mapGet (leaveRoom s sid roomId).1.rooms roomId = some
        { roomData with
          players := roomData.players.filter (fun p => ¬(p.id == sid)) }) := by
  unfold leaveRoom
  simp only [h]
  refine ⟨?_, ?_, ?_⟩
  · intro hlen
    rw [if_pos hlen]
    exact mapGet_mapDelete_self s.rooms roomId
  · intro hlen hact
    rw [if_neg hlen, if_pos hact]
    exact mapGet_mapSet_self s.rooms roomId _
  · intro hlen hact
    rw [if_neg hlen, if_neg hact]
    exact mapGet_mapSet_self s.rooms roomId _

/-- Witness: claim C6 (amended) applied to a one-player room, whose removal
deletes the room. -/
theorem leaveRoom_spec_witness :
    mapGet (leaveRoom
      ⟨[("R", { id := "R"
                players := [{ id := "s1", name := "Alice",
                              avatar := defaultAvatar, symbol := "X",
                              joinedAt := 0, ready := false }]
                gameState :=
                  { board := List.replicate 9 ""
                    currentTurn := "X"
                    gameStatus := "waiting"
                    winner := none
                    moves := 0 }
                created := 0
                privateFlag := false
                timeout := false })], [("s1", "R")]⟩
      "s1" "R").1.rooms "R" = none :=
  (leaveRoom_spec _ "s1" "R"
    { id := "R"
      players := [{ id := "s1", name := "Alice", avatar := defaultAvatar,
                    symbol := "X", joinedAt := 0, ready := false }]
      gameState :=
        { board := List.replicate 9 ""
          currentTurn := "X"
          gameStatus := "waiting"
          winner := none
          moves := 0 }
      created := 0
      privateFlag := false
      timeout := false } (by decide)).1 (by decide)

/-- Counterexample to claim C8 as stated: when the inactivity timer fires on
a room that still has both players, `resetRoom` sets the status to `active`
(a fresh game restarts immediately), not to `waiting` as the claim says. -/
theorem timeout_reset_goes_active :
    (mapGet (step 0 (run 0 initState
      [.joinRoom "s1" "R" "Alice" "" "X" false,
       .joinRoom "s2" "R" "Bob" "" "O" false]) (.timerFires "R")).1.rooms
      "R").map (fun r => (r.gameState.gameStatus, r.players.length)) =
      some ("active", 2) := by
  decide

/-- Claim C8 (amended): when the inactivity timeout fires while the room
still exists and the timer is armed, the server broadcasts `gameTimeout` and
resets the room: the board is cleared, the winner and move counter reset,
every ready flag cleared, the members kept, the timer disarmed, and the
status becomes `active` if 2 players remain and `waiting` otherwise. -/
theorem timerFire_spec (s : ServerState) (room : String) (roomData : Room)
    (h : mapGet s.rooms room = some roomData) (harm : roomData.timeout = true) :
    (timerFire s room).2 =
      [⟨.toRoom room, "gameTimeout", .text "Game timed out due to inactivity"⟩] ∧
    mapGet (timerFire s room).1.rooms room = some
      { roomData with
        timeout := false
        gameState :=
          { board := List.replicate 9 ""
            currentTurn := "X"
            gameStatus := if roomData.players.length = 2 then "active" else "waiting"
            winner := none
            moves := 0 }
        players := roomData.players.map (fun p => { p with ready := false }) } := by
  unfold timerFire
  simp only [h, harm, if_true]
  refine ⟨by trivial, ?_⟩
  unfold resetRoom
  simp only [h]
  exact mapGet_mapSet_self s.rooms room _

/-- Witness: claim C8 (amended) applied to a two-player room with an armed
timer. -/
theorem timerFire_spec_witness :
    (timerFire
      ⟨[("R", { id := "R"
                players :=
                  [{ id := "s1", name := "Alice", avatar := defaultAvatar,
                     symbol := "X", joinedAt := 0, ready := false },
                   { id := "s2", name := "Bob", avatar := defaultAvatar,
                     symbol := "O", joinedAt := 0, ready := false }]
                gameState :=
                  { board := List.replicate 9 ""
                    currentTurn := "X"
                    gameStatus := "active"
                    winner := none
                    moves := 0 }
                created := 0
                privateFlag := false
                timeout := true })], [("s1", "R"), ("s2", "R")]⟩
      "R").2 =
      [⟨.toRoom "R", "gameTimeout", .text "Game timed out due to inactivity"⟩] :=
  (timerFire_spec _ "R"
    { id := "R"
      players :=
        [{ id := "s1", name := "Alice", avatar := defaultAvatar,
           symbol := "X", joinedAt := 0, ready := false },
         { id := "s2", name := "Bob", avatar := defaultAvatar,
           symbol := "O", joinedAt := 0, ready := false }]
      gameState :=
        { board := List.replicate 9 ""
          currentTurn := "X"
          gameStatus := "active"
          winner := none
          moves := 0 }
      created := 0
      privateFlag := false
      timeout := true } (by decide) rfl).1

theorem applyMove_ok_turn (gs : GameState) (index : Int) (symbol : String)
    (pr : GameState × Option String)
    (h : applyMove gs index symbol = .ok pr) : gs.currentTurn = symbol := by
  unfold applyMove at h
  by_cases h1 : gs.gameStatus ≠ "active"
  · rw [if_pos h1] at h
    exact absurd h (by simp)
  · rw [if_neg h1] at h
    by_cases h2 : gs.currentTurn ≠ symbol
    · rw [if_pos h2] at h
      exact absurd h (by simp)
    · exact not_ne_iff.mp h2

theorem applyMove_ok_winner (gs : GameState) (index : Int) (symbol : String)
    (gs2 : GameState) (w : String)
    (h : applyMove gs index symbol = .ok (gs2, some w)) :
    checkWinner (jsSet gs.board index symbol) = some w ∧ gs2.winner = some w := by
  unfold applyMove at h
  by_cases h1 : gs.gameStatus ≠ "active"
  · rw [if_pos h1] at h
    exact absurd h (by simp)
  · rw [if_neg h1] at h
    by_cases h2 : gs.currentTurn ≠ symbol
    · rw [if_pos h2] at h
      exact absurd h (by simp)
    · rw [if_neg h2] at h
      by_cases h3 : jsGet gs.board index ≠ some ""
      · rw [if_pos h3] at h
        exact absurd h (by simp)
      · rw [if_neg h3] at h
        rcases hcw : checkWinner (jsSet gs.board index symbol) with _ | w0 <;>
          simp [hcw] at h
        obtain ⟨hgs, hw⟩ := h
        subst hw
        rw [← hgs]
        exact ⟨rfl, rfl⟩

theorem checkWinner_range (b : List String) (w : String)
    (hc : ∀ c ∈ b, c = "" ∨ c = "X" ∨ c = "O")
    (h : checkWinner b = some w) : w = "X" ∨ w = "O" ∨ w = "tie" := by
  unfold checkWinner at h
  rcases hf : winPatterns.find? (fun q => lineWin b q) with _ | p
  · rw [hf] at h
    by_cases hall : (b.all fun cell => decide (cell ≠ "")) = true
    · rw [if_pos hall] at h
      right; right
      exact (Option.some_inj.mp h).symm
    · rw [if_neg hall] at h
      exact absurd h (by simp)
  · rw [hf] at h
    have hlw : lineWin b p = true := List.find?_some hf
    have hval : b.getD p.1 "" = w := Option.some_inj.mp h
    have hne : b.getD p.1 "" ≠ "" := by
      simp only [lineWin, Bool.and_eq_true, decide_eq_true_eq] at hlw
      exact hlw.1.1
    by_cases hl : p.1 < b.length
    · have hmem : b.getD p.1 "" ∈ b := by
        rw [List.getD_eq_getElem b "" hl]
        exact List.getElem_mem hl
      rcases hc _ hmem with h0 | h0 | h0
      · exact absurd h0 hne
      · left; rw [← hval, h0]
      · right; left; rw [← hval, h0]
    · have : b.getD p.1 "" = "" := List.getD_eq_default b "" (le_of_not_lt hl)
      exact absurd this hne

theorem jsSet_cells (b : List String) (i : Int) (v : String)
    (P : String → Prop) (hb : ∀ c ∈ b, P c) (hv : P v) :
    ∀ c ∈ jsSet b i v, P c := by
  intro c hc
  unfold jsSet at hc
  split at hc
  · rcases List.mem_or_eq_of_mem_set hc with h | h
    · exact hb c h
    · rw [h]; exact hv
  · exact hb c hc

/-- Claim C10: when a move decides the game, the `gameEnd` broadcast carries
in its winner field the display name of the player who made the move — and
null on a tie — while the stored game-state winner field carries the symbol
`X`, `O` or `tie` (given a board over the mark alphabet and a turn in
`X`/`O`, as every reachable game state has). -/
theorem gameEnd_payload_spec (s : ServerState) (sid room : String) (index : Int)
    (symbol : String) (roomData : Room) (player : Player) (gs2 : GameState)
    (w : String)
    (h1 : mapGet s.rooms room = some roomData)
    (h2 : roomData.players.find? (fun p => p.id == sid) = some player)
    (h3 : applyMove roomData.gameState index symbol = .ok (gs2, some w))
    (hcells : ∀ c ∈ roomData.gameState.board, c = "" ∨ c = "X" ∨ c = "O")
    (hturn : roomData.gameState.currentTurn = "X" ∨
      roomData.gameState.currentTurn = "O") :
    (handleMakeMove s sid room index symbol).2 =
      [⟨.toRoom room, "gameEnd",
        .gameEnd (if w = "tie" then none else some player.name) gs2
          (if w = "tie" then "tie" else "win")⟩] ∧
    gs2.winner = some w ∧ (w = "X" ∨ w = "O" ∨ w = "tie") := by
  have hsym : roomData.gameState.currentTurn = symbol :=
    applyMove_ok_turn roomData.gameState index symbol (gs2, some w) h3
  obtain ⟨hcw, hwin⟩ := applyMove_ok_winner roomData.gameState index symbol gs2 w h3
  have hcells2 : ∀ c ∈ jsSet roomData.gameState.board index symbol,
      c = "" ∨ c = "X" ∨ c = "O" := by
    refine jsSet_cells _ _ _ _ hcells ?_
    rw [← hsym]
    rcases hturn with h | h <;> rw [h] <;> simp
  refine ⟨?_, hwin, checkWinner_range _ w hcells2 hcw⟩
  unfold handleMakeMove
  simp only [h1, h2, h3]

/-- Witness: claim C10 applied to a winning move completing the top row. -/
theorem gameEnd_payload_witness :
    (handleMakeMove
      ⟨[("R", { id := "R"
                players :=
                  [{ id := "s1", name := "Alice", avatar := defaultAvatar,
                     symbol := "X", joinedAt := 0, ready := false },
                   { id := "s2", name := "Bob", avatar := defaultAvatar,
                     symbol := "O", joinedAt := 0, ready := false }]
                gameState :=
                  { board := ["X", "X", "", "O", "O", "", "", "", ""]
                    currentTurn := "X"
                    gameStatus := "active"
                    winner := none
                    moves := 4 }
                created := 0
                privateFlag := false
                timeout := true })], [("s1", "R"), ("s2", "R")]⟩
      "s1" "R" 2 "X").2 =
      [⟨.toRoom "R", "gameEnd",
        .gameEnd (some "Alice")
          { board := ["X", "X", "X", "O", "O", "", "", "", ""]
            currentTurn := "X"
            gameStatus := "finished"
            winner := some "X"
            moves := 5 } "win"⟩] ∧
    (({ board := ["X", "X", "X", "O", "O", "", "", "", ""]
        currentTurn := "X"
        gameStatus := "finished"
        winner := some "X"
        moves := 5 } : GameState).winner = some "X") ∧
    (("X" : String) = "X" ∨ ("X" : String) = "O" ∨ ("X" : String) = "tie") :=
  gameEnd_payload_spec _ "s1" "R" 2 "X"
    { id := "R"
      players :=
        [{ id := "s1", name := "Alice", avatar := defaultAvatar,
           symbol := "X", joinedAt := 0, ready := false },
         { id := "s2", name := "Bob", avatar := defaultAvatar,
           symbol := "O", joinedAt := 0, ready := false }]
      gameState :=
        { board := ["X", "X", "", "O", "O", "", "", "", ""]
          currentTurn := "X"
          gameStatus := "active"
          winner := none
          moves := 4 }
      created := 0
      privateFlag := false
      timeout := true }
    { id := "s1", name := "Alice", avatar := defaultAvatar, symbol := "X",
      joinedAt := 0, ready := false }
    { board := ["X", "X", "X", "O", "O", "", "", "", ""]
      currentTurn := "X"
      gameStatus := "finished"
      winner := some "X"
      moves := 5 } "X" (by decide) (by decide) rfl (by decide) (Or.inl rfl)

theorem leaveRoom_events (s : ServerState) (sid roomId : String) :
    ∀ em ∈ (leaveRoom s sid roomId).2,
      em.event = "playerLeft" ∨ em.event = "roomUpdate" := by
  intro em hmem
  unfold leaveRoom at hmem
  rcases hr : mapGet s.rooms roomId with _ | roomData <;> simp only [hr] at hmem
  · simp at hmem
  · split at hmem
    · simp at hmem
    · split at hmem <;> simp at hmem <;>
        first
        | (rcases hmem with h | h <;> rw [h] <;> simp)
        | (rw [hmem]; simp)

set_option maxHeartbeats 1600000 in
theorem handleJoinRoom_err_scoped (now : Nat) (s : ServerState)
    (sid room name avatar symbol : String) (isPrivate : Bool) :
    ∀ em ∈ (handleJoinRoom now s sid room name avatar symbol isPrivate).2,
      em.event ∈ errEvents → em.target = Target.toSocket sid := by
  intro em hmem herr
  unfold handleJoinRoom at hmem
  split at hmem
  · simp at hmem
    first
    | rfl
    | rw [hmem]
  · split at hmem
    · simp at hmem
      first
      | rfl
      | rw [hmem]
    · set pl := (match mapGet s.playerSockets sid with
        | some prevRoom => leaveRoom s sid prevRoom
        | none => (s, ([] : List Emit))) with hpl
      have hems1 : ∀ e2 ∈ pl.2, e2.event = "playerLeft" ∨ e2.event = "roomUpdate" := by
        rw [hpl]
        rcases hp : mapGet s.playerSockets sid with _ | prevRoom <;> simp only [hp]
        · intro e2 he2
          simp at he2
        · exact leaveRoom_events s sid prevRoom
      dsimp only at hmem
      repeat' split at hmem
      all_goals
        (rcases List.mem_append.mp hmem with hx | hx
         · rcases hems1 em hx with h | h <;> rw [h] at herr <;>
             simp [errEvents] at herr
         · simp at hx
           first
           | (subst hx
              revert herr
              simp [errEvents])
           | (rcases hx with h | h | h <;> subst_vars <;> revert herr <;>
               simp [errEvents]))

theorem handleMakeMove_err_scoped (s : ServerState) (sid room : String)
    (index : Int) (symbol : String) :
    ∀ em ∈ (handleMakeMove s sid room index symbol).2,
      em.event ∈ errEvents → em.target = Target.toSocket sid := by
  intro em hmem herr
  unfold handleMakeMove at hmem
  rcases hr : mapGet s.rooms room with _ | roomData <;> simp only [hr] at hmem
  · simp at hmem
    subst hmem
    rfl
  · rcases hp : roomData.players.find? (fun p => p.id == sid) with _ | player <;>
      simp only [hp] at hmem
    · simp at hmem
      subst hmem
      rfl
    · rcases ha : applyMove roomData.gameState index symbol with msg | gw <;>
        simp only [ha] at hmem
      · simp at hmem
        subst hmem
        rfl
      · obtain ⟨gs2, w⟩ := gw
        rcases w with _ | ww <;> simp at hmem <;> subst hmem <;>
          revert herr <;> simp [errEvents]

theorem handleMakeMove_err_preserves (s : ServerState) (sid room : String)
    (index : Int) (symbol : String)
    (hex : ∃ em ∈ (handleMakeMove s sid room index symbol).2,
      em.event ∈ errEvents) :
    (handleMakeMove s sid room index symbol).1 = s := by
  obtain ⟨em, hmem, herr⟩ := hex
  unfold handleMakeMove at hmem ⊢
  rcases hr : mapGet s.rooms room with _ | roomData <;> simp only [hr] at hmem ⊢
  rcases hp : roomData.players.find? (fun p => p.id == sid) with _ | player <;>
    simp only [hp] at hmem ⊢
  rcases ha : applyMove roomData.gameState index symbol with msg | gw <;>
    simp only [ha] at hmem ⊢
  obtain ⟨gs2, w⟩ := gw
  rcases w with _ | ww <;> simp at hmem <;> subst hmem <;>
    revert herr <;> simp [errEvents]

theorem handleResetGame_events (s : ServerState) (sid room : String) :
    ∀ em ∈ (handleResetGame s sid room).2, em.event = "gameReset" := by
  intro em hmem
  unfold handleResetGame at hmem
  rcases hr : mapGet s.rooms room with _ | roomData <;> simp only [hr] at hmem
  · simp at hmem
  · rcases hp : roomData.players.find? (fun p => p.id == sid) with _ | player <;>
      simp only [hp] at hmem
    · simp at hmem
    · rcases h2 : mapGet (resetRoom s room).rooms room with _ | roomData1 <;>
        simp only [h2] at hmem
      · simp at hmem
      · simp at hmem
        subst hmem
        rfl

theorem handlePlayerReady_events (s : ServerState) (sid room : String) :
    ∀ em ∈ (handlePlayerReady s sid room).2, em.event = "playerReadyUpdate" := by
  intro em hmem
  unfold handlePlayerReady at hmem
  rcases hr : mapGet s.rooms room with _ | roomData <;> simp only [hr] at hmem
  · simp at hmem
  · rcases hp : roomData.players.find? (fun p => p.id == sid) with _ | player <;>
      simp only [hp] at hmem
    · simp at hmem
    · simp at hmem
      subst hmem
      rfl

theorem handleChatMessage_events (now : Nat) (s : ServerState)
    (sid room message : String) :
    ∀ em ∈ (handleChatMessage now s sid room message).2,
      em.event = "chatMessage" := by
  intro em hmem
  unfold handleChatMessage at hmem
  rcases hr : mapGet s.rooms room with _ | roomData <;> simp only [hr] at hmem
  · simp at hmem
  · rcases hp : roomData.players.find? (fun p => p.id == sid) with _ | player <;>
      simp only [hp] at hmem
    · simp at hmem
    · split at hmem
      · simp at hmem
      · simp at hmem
        subst hmem
        rfl

theorem handleDisconnect_events (s : ServerState) (sid : String) :
    ∀ em ∈ (handleDisconnect s sid).2,
      em.event = "playerLeft" ∨ em.event = "roomUpdate" := by
  intro em hmem
  unfold handleDisconnect at hmem
  rcases hr : mapGet s.playerSockets sid with _ | room <;> simp only [hr] at hmem
  · simp at hmem
  · exact leaveRoom_events s sid room em hmem

theorem timerFire_events (s : ServerState) (room : String) :
    ∀ em ∈ (timerFire s room).2, em.event = "gameTimeout" := by
  intro em hmem
  unfold timerFire at hmem
  rcases hr : mapGet s.rooms room with _ | roomData <;> simp only [hr] at hmem
  · simp at hmem
  · split at hmem
    · simp at hmem
      subst hmem
      rfl
    · simp at hmem

theorem joinRoom_validation_state (now : Nat) (s : ServerState)
    (sid room name avatar symbol : String) (isPrivate : Bool) :
    ((room = "" ∨ name = "" ∨ symbol = "") →
      handleJoinRoom now s sid room name avatar symbol isPrivate =
        (s, [⟨Target.toSocket sid, "error", .text "Missing required fields"⟩])) ∧
    (¬(room = "" ∨ name = "" ∨ symbol = "") →
      (20 < name.length ∨ 10 < room.length) →
      handleJoinRoom now s sid room name avatar symbol isPrivate =
        (s, [⟨Target.toSocket sid, "error", .text "Name or room ID too long"⟩])) := by
  constructor
  · intro h
    unfold handleJoinRoom
    rw [if_pos h]
  · intro h1 h2
    unfold handleJoinRoom
    rw [if_neg h1, if_pos h2]

/-- Counterexample to claim C2 as stated: a member of room `A` asks to join
the full room `B`; the server answers with a scoped `roomFull` error only,
but shared state is not left untouched — the connection was already removed
from room `A`, which, becoming empty, was deleted from the registry. -/
theorem joinRoom_roomFull_mutates_registry :
    (mapGet (run 0 initState
      [.joinRoom "t1" "B" "P1" "" "X" false,
       .joinRoom "t2" "B" "P2" "" "O" false,
       .joinRoom "s1" "A" "Alice" "" "X" false]).rooms "A").isSome = true ∧
    (step 0 (run 0 initState
      [.joinRoom "t1" "B" "P1" "" "X" false,
       .joinRoom "t2" "B" "P2" "" "O" false,
       .joinRoom "s1" "A" "Alice" "" "X" false])
      (.joinRoom "s1" "B" "Carol" "" "O" false)).2.map (fun em => em.event) =
      ["roomFull"] ∧
    mapGet (step 0 (run 0 initState
      [.joinRoom "t1" "B" "P1" "" "X" false,
       .joinRoom "t2" "B" "P2" "" "O" false,
       .joinRoom "s1" "A" "Alice" "" "X" false])
      (.joinRoom "s1" "B" "Carol" "" "O" false)).1.rooms "A" = none := by
  decide

/-- A resetGame, playerReady or chatMessage event naming an unknown room is
dropped silently: no emission, no state change (`server.js` lines 278, 297,
316). -/
theorem silent_drop_no_room (s : ServerState) (sid room : String)
    (hr : mapGet s.rooms room = none) :
    handleResetGame s sid room = (s, []) ∧
    handlePlayerReady s sid room = (s, []) ∧
    (∀ (now : Nat) (message : String),
      handleChatMessage now s sid room message = (s, [])) := by
  refine ⟨?_, ?_, ?_⟩
  · unfold handleResetGame
    simp only [hr]
  · unfold handlePlayerReady
    simp only [hr]
  · intro now message
    unfold handleChatMessage
    simp only [hr]

/-- A resetGame, playerReady or chatMessage event from a connection that is
not a member of the named room is dropped silently (`server.js` lines 281,
300, 319). -/
theorem silent_drop_not_member (s : ServerState) (sid room : String)
    (rd : Room) (hr : mapGet s.rooms room = some rd)
    (hp : rd.players.find? (fun p => p.id == sid) = none) :
    handleResetGame s sid room = (s, []) ∧
    handlePlayerReady s sid room = (s, []) ∧
    (∀ (now : Nat) (message : String),
      handleChatMessage now s sid room message = (s, [])) := by
  refine ⟨?_, ?_, ?_⟩
  · unfold handleResetGame
    simp only [hr, hp]
  · unfold handlePlayerReady
    simp only [hr, hp]
  · intro now message
    unfold handleChatMessage
    simp only [hr, hp]

/-- A chat message longer than 100 characters after trimming is dropped
silently (`server.js` line 321). -/
theorem silent_drop_long_chat (now : Nat) (s : ServerState)
    (sid room message : String) (rd : Room) (p : Player)
    (hr : mapGet s.rooms room = some rd)
    (hp : rd.players.find? (fun q => q.id == sid) = some p)
    (hlen : 100 < message.trim.length) :
    handleChatMessage now s sid room message = (s, []) := by
  unfold handleChatMessage
  simp only [hr, hp]
  rw [if_pos hlen]


/-- Claim C2 (amended): every error emission (`error`, `roomFull`,
`symbolTaken`) produced by any event goes to the originating connection
only, never to a room broadcast group; for every event other than
`joinRoom`, an error outcome leaves the server state exactly as it was (some
failures — resetGame, playerReady or chatMessage on an unknown room or from
a non-member, and oversized chat — produce no response at all, and also
change nothing); `joinRoom` validation errors also leave the state unchanged
— but `joinRoom` errors arising after validation (RoomFull, SymbolTaken, the
internal failure while emitting joinSuccess) can occur after the
previous-room removal and join mutations have already changed shared
state. -/
theorem errors_scoped_and_local :
    (∀ (now : Nat) (s : ServerState) (e : Event),
      ∀ em ∈ (step now s e).2, em.event ∈ errEvents →
        ∃ sid, callerOf e = some sid ∧ em.target = Target.toSocket sid) ∧
    (∀ (now : Nat) (s : ServerState) (e : Event), e.isJoin = false →
      (∃ em ∈ (step now s e).2, em.event ∈ errEvents) →
      (step now s e).1 = s) ∧
    (∀ (now : Nat) (s : ServerState)
      (sid room name avatar symbol : String) (isPrivate : Bool),
      (room = "" ∨ name = "" ∨ symbol = "") →
      step now s (.joinRoom sid room name avatar symbol isPrivate) =
        (s, [⟨Target.toSocket sid, "error", .text "Missing required fields"⟩])) ∧
    (∀ (now : Nat) (s : ServerState)
      (sid room name avatar symbol : String) (isPrivate : Bool),
      ¬(room = "" ∨ name = "" ∨ symbol = "") →
      (20 < name.length ∨ 10 < room.length) →
      step now s (.joinRoom sid room name avatar symbol isPrivate) =
        (s, [⟨Target.toSocket sid, "error", .text "Name or room ID too long"⟩])) ∧
    (∀ (now : Nat) (s : ServerState) (sid room : String),
      mapGet s.rooms room = none →
      step now s (.resetGame sid room) = (s, []) ∧
      step now s (.playerReady sid room) = (s, []) ∧
      (∀ message : String,
        step now s (.chatMessage sid room message) = (s, []))) ∧
    (∀ (now : Nat) (s : ServerState) (sid room : String) (rd : Room),
      mapGet s.rooms room = some rd →
      rd.players.find? (fun p => p.id == sid) = none →
      step now s (.resetGame sid room) = (s, []) ∧
      step now s (.playerReady sid room) = (s, []) ∧
      (∀ message : String,
        step now s (.chatMessage sid room message) = (s, []))) ∧
    (∀ (now : Nat) (s : ServerState) (sid room message : String) (rd : Room)
      (p : Player),
      mapGet s.rooms room = some rd →
      rd.players.find? (fun q => q.id == sid) = some p →
      100 < message.trim.length →
      step now s (.chatMessage sid room message) = (s, [])) := by
  refine ⟨?_, ?_, ?_, ?_, ?_, ?_, ?_⟩
  · intro now s e em hmem herr
    cases e with
    | joinRoom sid room name avatar symbol isPrivate =>
      exact ⟨sid, rfl,
        handleJoinRoom_err_scoped now s sid room name avatar symbol isPrivate
          em hmem herr⟩
    | makeMove sid room index symbol =>
      exact ⟨sid, rfl,
        handleMakeMove_err_scoped s sid room index symbol em hmem herr⟩
    | resetGame sid room =>
      have := handleResetGame_events s sid room em hmem
      rw [this] at herr
      simp [errEvents] at herr
    | playerReady sid room =>
      have := handlePlayerReady_events s sid room em hmem
      rw [this] at herr
      simp [errEvents] at herr
    | chatMessage sid room message =>
      have := handleChatMessage_events now s sid room message em hmem
      rw [this] at herr
      simp [errEvents] at herr
    | disconnect sid =>
      rcases handleDisconnect_events s sid em hmem with h | h <;>
        rw [h] at herr <;> simp [errEvents] at herr
    | timerFires room =>
      have := timerFire_events s room em hmem
      rw [this] at herr
      simp [errEvents] at herr
    | sweep =>
      simp [step] at hmem
  · intro now s e hj hex
    cases e with
    | joinRoom sid room name avatar symbol isPrivate => simp [Event.isJoin] at hj
    | makeMove sid room index symbol =>
      exact handleMakeMove_err_preserves s sid room index symbol hex
    | resetGame sid room =>
      obtain ⟨em, hmem, herr⟩ := hex
      have := handleResetGame_events s sid room em hmem
      rw [this] at herr
      simp [errEvents] at herr
    | playerReady sid room =>
      obtain ⟨em, hmem, herr⟩ := hex
      have := handlePlayerReady_events s sid room em hmem
      rw [this] at herr
      simp [errEvents] at herr
    | chatMessage sid room message =>
      obtain ⟨em, hmem, herr⟩ := hex
      have := handleChatMessage_events now s sid room message em hmem
      rw [this] at herr
      simp [errEvents] at herr
    | disconnect sid =>
      obtain ⟨em, hmem, herr⟩ := hex
      rcases handleDisconnect_events s sid em hmem with h | h <;>
        rw [h] at herr <;> simp [errEvents] at herr
    | timerFires room =>
      obtain ⟨em, hmem, herr⟩ := hex
      have := timerFire_events s room em hmem
      rw [this] at herr
      simp [errEvents] at herr
    | sweep =>
      obtain ⟨em, hmem, herr⟩ := hex
      simp [step] at hmem
  · intro now s sid room name avatar symbol isPrivate h
    exact (joinRoom_validation_state now s sid room name avatar symbol
      isPrivate).1 h
  · intro now s sid room name avatar symbol isPrivate h1 h2
    exact (joinRoom_validation_state now s sid room name avatar symbol
      isPrivate).2 h1 h2
  · intro now s sid room hr
    obtain ⟨h1, h2, h3⟩ := silent_drop_no_room s sid room hr
    exact ⟨h1, h2, fun message => h3 now message⟩
  · intro now s sid room rd hr hp
    obtain ⟨h1, h2, h3⟩ := silent_drop_not_member s sid room rd hr hp
    exact ⟨h1, h2, fun message => h3 now message⟩
  · intro now s sid room message rd p hr hp hlen
    exact silent_drop_long_chat now s sid room message rd p hr hp hlen

/-- Witness: claim C2 (amended) applied to a joinRoom with missing fields,
a joinRoom with an over-long room id, a makeMove on an unknown room, and a
resetGame silently dropped on an unknown room. -/
theorem errors_scoped_witness :
    step 0 initState (.joinRoom "s9" "" "" "" "" false) =
      (initState,
       [⟨Target.toSocket "s9", "error", .text "Missing required fields"⟩]) ∧
    step 0 initState (.joinRoom "s9" "R01234567890" "Alice" "" "X" false) =
      (initState,
       [⟨Target.toSocket "s9", "error", .text "Name or room ID too long"⟩]) ∧
    (step 0 initState (.makeMove "s9" "R" 0 "X")).1 = initState ∧
    step 0 initState (.resetGame "s9" "R") = (initState, []) :=
  ⟨errors_scoped_and_local.2.2.1 0 initState "s9" "" "" "" "" false
     (Or.inl rfl),
   errors_scoped_and_local.2.2.2.1 0 initState "s9" "R01234567890" "Alice"
     "" "X" false (by decide) (Or.inr (by decide)),
   errors_scoped_and_local.2.1 0 initState (.makeMove "s9" "R" 0 "X") rfl
     ⟨⟨Target.toSocket "s9", "error", .text "Room not found"⟩, by decide,
      by decide⟩,
   (errors_scoped_and_local.2.2.2.2.1 0 initState "s9" "R" rfl).1⟩

/-- Claim C1: on an accepted join the code emits `roomUpdate` to the room
(and `gameStart` when the join makes 2 players) — but never `joinSuccess`:
building the joinSuccess payload dereferences `req.headers.origin` with
`req` not in scope in the socket handler, so a ReferenceError is thrown and
the catch block emits `error` `Failed to join room` to the caller instead.
This theorem evaluates both joins of the failing input. -/
theorem joinRoom_emits_error_not_joinSuccess :
    (step 0 initState (.joinRoom "s1" "R1" "Alice" "" "X" false)).2.map
      (fun em => em.event) = ["roomUpdate", "error"] ∧
    (step 0 (step 0 initState (.joinRoom "s1" "R1" "Alice" "" "X" false)).1
      (.joinRoom "s2" "R1" "Bob" "" "O" false)).2.map (fun em => em.event) =
      ["roomUpdate", "gameStart", "error"] ∧
    (step 0 (step 0 initState (.joinRoom "s1" "R1" "Alice" "" "X" false)).1
      (.joinRoom "s2" "R1" "Bob" "" "O" false)).2.all
      (fun em => !(em.event == "joinSuccess")) = true := by
  decide

/-- Claim C7: the code violates the claim — when a player leaves an active
two-player game (abandonment), `leaveRoom` sets the status to `finished` but
does not clear the inactivity timer, so the timer stays armed on an ended
game and later fires, broadcasting `gameTimeout` on a room whose game is
already finished.  This theorem evaluates the failing input. -/
theorem abandonment_keeps_timer_armed :
    (mapGet (run 0 initState
      [.joinRoom "s1" "R" "Alice" "" "X" false,
       .joinRoom "s2" "R" "Bob" "" "O" false,
       .disconnect "s2"]).rooms "R").map
      (fun r => (r.gameState.gameStatus, r.timeout)) = some ("finished", true) ∧
    (step 0 (run 0 initState
      [.joinRoom "s1" "R" "Alice" "" "X" false,
       .joinRoom "s2" "R" "Bob" "" "O" false,
       .disconnect "s2"]) (.timerFires "R")).2.map (fun em => em.event) =
      ["gameTimeout"] := by
  decide

end TTT
